import Mathlib

/-!
Shallow embedding of the TTC-estimation core in `src/src/camFusion_Student.cpp`
(3D-object-tracking sensor-fusion project).

Modelling conventions:
* C++ `double`/`float` values that stay finite are embedded as exact
  rationals (`ℚ`); where the source relies on IEEE-754 special values
  (division by zero producing infinities, `inf - inf` producing NaN), the
  explicit type `EDouble` (finite rational, two infinities, NaN) is used
  with the IEEE special-value rules spelled out operation by operation.
* C++ conversions of floating values to `int` (assignment to `cv::Rect` /
  `cv::Point` fields and constructor arguments) truncate toward zero and
  are embedded by `truncQ`.  `cv::Rect::contains` uses half-open ranges.
  Passing a `cv::Point2f` to `cv::Rect::contains` converts through
  `saturate_cast<int>` (round half to even, clamped), embedded by
  `satCastInt`.
* Undefined behaviour of the source (out-of-bounds vector accesses,
  integer division by zero, signed-integer overflow) is embedded by an
  `Option`/sentinel result: `none` marks an execution that the C++
  abstract machine does not define.
* `cv::norm` of a keypoint difference is irrational-valued in general, so
  the vision-based estimator is parametric in the distance function that
  stands for it.  All concrete instances use keypoints on a common
  vertical line, where the Euclidean norm equals `|Δy|` exactly.
-/

unseal Rat.add Rat.mul Rat.sub Rat.inv

/-- Truncation toward zero of a rational, as C++ does when converting a
floating value to an integer type.  A `Rat` is stored reduced, so
truncated division of numerator by denominator is exactly truncation. -/
def truncQ (q : ℚ) : ℤ := q.num.tdiv q.den

/-- A 3D Lidar point (`LidarPoint` in `dataStructures.h`): x forward,
y left, z up, r reflectivity. -/
structure LidarPoint where
  x : ℚ
  y : ℚ
  z : ℚ
  r : ℚ
deriving DecidableEq

/-- An axis-aligned integer rectangle (`cv::Rect`). -/
structure Rect where
  x : ℤ
  y : ℤ
  w : ℤ
  h : ℤ
deriving DecidableEq

/-- Membership test of `cv::Rect::contains`: half-open in both axes. -/
def rectContains (r : Rect) (p : ℤ × ℤ) : Bool :=
  decide (r.x ≤ p.1) && decide (p.1 < r.x + r.w) &&
  decide (r.y ≤ p.2) && decide (p.2 < r.y + r.h)

/-- A 2D keypoint location (`cv::KeyPoint::pt`, float coordinates). -/
structure KeyPoint where
  px : ℚ
  py : ℚ
deriving DecidableEq

/-- A keypoint correspondence (`cv::DMatch`): previous-frame index
`queryIdx`, current-frame index `trainIdx`, dissimilarity `distance`. -/
structure DMatch where
  queryIdx : ℕ
  trainIdx : ℕ
  distance : ℚ
deriving DecidableEq

/-- A detected region (`BoundingBox` in `dataStructures.h`): the fields
the core reads or writes. -/
structure BoundingBox where
  boxID : ℤ
  roi : Rect
  lidarPoints : List LidarPoint
  kptMatches : List DMatch
deriving DecidableEq

/-- A frame aggregate (`DataFrame`): the fields the core reads. -/
structure DataFrame where
  keypoints : List KeyPoint
  boundingBoxes : List BoundingBox
deriving DecidableEq

def defaultKeyPoint : KeyPoint := ⟨0, 0⟩

def defaultDMatch : DMatch := ⟨0, 0, 0⟩

def defaultBoundingBox : BoundingBox := ⟨0, ⟨0, 0, 0, 0⟩, [], []⟩

/-- Homogeneous 4-vector of exact rationals. -/
structure Vec4 where
  a : ℚ
  b : ℚ
  c : ℚ
  d : ℚ

/-- 3-vector of exact rationals. -/
structure Vec3 where
  a : ℚ
  b : ℚ
  c : ℚ

/-- 4×4 matrix (rows), e.g. `R_rect_xx`, `RT`. -/
structure Mat4 where
  r0 : Vec4
  r1 : Vec4
  r2 : Vec4
  r3 : Vec4

/-- 3×4 matrix (rows), e.g. `P_rect_xx`. -/
structure Mat34 where
  r0 : Vec4
  r1 : Vec4
  r2 : Vec4

def dot4 (u v : Vec4) : ℚ := u.a * v.a + u.b * v.b + u.c * v.c + u.d * v.d

def mat4MulVec (M : Mat4) (v : Vec4) : Vec4 :=
  ⟨dot4 M.r0 v, dot4 M.r1 v, dot4 M.r2 v, dot4 M.r3 v⟩

def mat34MulVec (M : Mat34) (v : Vec4) : Vec3 :=
  ⟨dot4 M.r0 v, dot4 M.r1 v, dot4 M.r2 v⟩

/-- Projection of a Lidar point into pixel coordinates, lines 24-33 of
`clusterLidarWithROI`: `Y = P_rect_xx * R_rect_xx * RT * X`, then both
pixel coordinates are divided by the third component of `Y` (the source
writes `Y.at<double>(0, 2)`, which on a contiguous 3×1 matrix addresses
element 2) and truncated by the assignment to the `int` fields of
`cv::Point`.  A zero third component is division by zero on doubles;
no claim exercises that case and `ℚ` division by zero yields 0 here. -/
def projectLidar (P : Mat34) (R RT : Mat4) (p : LidarPoint) : ℤ × ℤ :=
  let X : Vec4 := ⟨p.x, p.y, p.z, 1⟩
  let Y := mat34MulVec P (mat4MulVec R (mat4MulVec RT X))
  (truncQ (Y.a / Y.c), truncQ (Y.b / Y.c))

/-- The shrunk rectangle of lines 40-43: each double expression is
truncated by assignment to the `int` fields of `cv::Rect`. -/
def shrunkRect (shrinkFactor : ℚ) (r : Rect) : Rect :=
  { x := truncQ ((r.x : ℚ) + shrinkFactor * (r.w : ℚ) / 2)
    y := truncQ ((r.y : ℚ) + shrinkFactor * (r.h : ℚ) / 2)
    w := truncQ ((r.w : ℚ) * (1 - shrinkFactor))
    h := truncQ ((r.h : ℚ) * (1 - shrinkFactor)) }

/-- One iteration of the point loop of `clusterLidarWithROI` (lines
21-60): project the point, collect the boxes whose shrunk rectangle
contains the pixel, and append the point to the unique enclosing box
when there is exactly one. -/
def clusterStep (shrinkFactor : ℚ) (P : Mat34) (R RT : Mat4)
    (bs : List BoundingBox) (p : LidarPoint) : List BoundingBox :=
  let pt := projectLidar P R RT p
  let enclosingBoxes := bs.filter (fun b => rectContains (shrunkRect shrinkFactor b.roi) pt)
  if enclosingBoxes.length = 1 then
    bs.map (fun b =>
      if rectContains (shrunkRect shrinkFactor b.roi) pt then
        { b with lidarPoints := b.lidarPoints ++ [p] }
      else b)
  else bs

/-- `clusterLidarWithROI` (lines 15-61): fold the per-point step over the
Lidar points in order.  The C++ pushes the point onto
`enclosingBoxes[0]->lidarPoints`; with exactly one enclosing box the
conditional map of `clusterStep` appends to that same unique box. -/
def clusterLidarWithROI (boundingBoxes : List BoundingBox) (lidarPoints : List LidarPoint)
    (shrinkFactor : ℚ) (P : Mat34) (R RT : Mat4) : List BoundingBox :=
  lidarPoints.foldl (clusterStep shrinkFactor P R RT) boundingBoxes

/-- Spec-side assignment predicate: point `p` goes to a box with roi
`roi` exactly when that box's shrunk rectangle contains the projected
pixel and the total number of enclosing rectangles (over the roi list
`rois` of all boxes) is exactly one. -/
def assignedToRoi (rois : List Rect) (shrinkFactor : ℚ) (P : Mat34) (R RT : Mat4)
    (roi : Rect) (p : LidarPoint) : Bool :=
  rectContains (shrunkRect shrinkFactor roi) (projectLidar P R RT p) &&
    decide ((rois.countP
      (fun r => rectContains (shrunkRect shrinkFactor r) (projectLidar P R RT p))) = 1)

/-- Truncating conversion of a keypoint location to `cv::Point`, as in the
explicit constructor call `cv::Point(kpt.pt.x, kpt.pt.y)` of line 145
(float arguments convert to `int` by truncation toward zero). -/
def truncPt (k : KeyPoint) : ℤ × ℤ := (truncQ k.px, truncQ k.py)

/-- The `std::accumulate(begin, end, 0)` of line 151: the accumulator has
type `int`, so every partial sum is converted from `double` back to `int`
by truncation toward zero.  A partial sum outside the `int` range is
undefined behaviour, embedded as `none`. -/
def accStep (acc : Option ℤ) (d : ℚ) : Option ℤ :=
  acc.bind (fun a =>
    if -(2 ^ 31) ≤ truncQ ((a : ℚ) + d) ∧ truncQ ((a : ℚ) + d) < 2 ^ 31 then
      some (truncQ ((a : ℚ) + d))
    else none)

def accInt (l : List ℚ) : Option ℤ := l.foldl accStep (some 0)

/-- The division `intSum / accDistances.size()` of line 151 for a nonzero
count: the `int` operand converts to `size_t` (modulo `2^64`), the
division is unsigned, and the `size_t` quotient converts to the `long`
variable `meanDist` (modulo `2^64`, both 64-bit). -/
def cppUDivToLong (s : ℤ) (n : ℕ) : ℤ :=
  let u : ℕ := (s % (2 ^ 64 : ℤ)).toNat / n
  if u < 2 ^ 63 then (u : ℤ) else (u : ℤ) - 2 ^ 64

/-- The candidate set of `clusterKptMatchesWithROI` (lines 141-150): the
matches whose current-frame keypoint, truncated to `cv::Point`, lies in
the box's (unshrunk) rectangle. -/
def roiCandidates (roi : Rect) (kptsCurr : List KeyPoint) (kptMatches : List DMatch) :
    List DMatch :=
  kptMatches.filter (fun m =>
    rectContains roi (truncPt (kptsCurr.getD m.trainIdx defaultKeyPoint)))

/-- Arithmetic mean of the candidate set's dissimilarity scores, written
from the spec's words ("the arithmetic mean of their dissimilarity
scores") for comparison with what line 151 of the source computes. -/
def candMean (roi : Rect) (kptsCurr : List KeyPoint) (kptMatches : List DMatch) : ℚ :=
  ((roiCandidates roi kptsCurr kptMatches).map (·.distance)).sum /
    ((roiCandidates roi kptsCurr kptMatches).length : ℚ)

/-- `clusterKptMatchesWithROI` (lines 134-160).  With an empty candidate
set line 151 divides by zero (undefined behaviour, embedded as `none`);
`none` likewise marks a signed-overflow execution inside the accumulate.
Otherwise the kept matches — candidates with dissimilarity strictly below
`0.7 * meanDist` — are appended to the box's `kptMatches`.  The `double`
literal `0.7` is embedded as the exact rational `7/10`; the kept set can
only shrink under the exact comparison, which none of the claims'
boundary cases exercise. -/
def clusterKptMatchesWithROI (boundingBox : BoundingBox) (kptsPrev kptsCurr : List KeyPoint)
    (kptMatches : List DMatch) : Option BoundingBox :=
  let kptsRoi := roiCandidates boundingBox.roi kptsCurr kptMatches
  let accDistances := kptsRoi.map (·.distance)
  if accDistances.length = 0 then none
  else
    match accInt accDistances with
    | none => none
    | some s =>
      let meanDist := cppUDivToLong s accDistances.length
      let threshold : ℚ := (7 / 10) * (meanDist : ℚ)
      some { boundingBox with
              kptMatches := boundingBox.kptMatches ++
                kptsRoi.filter (fun m => decide (m.distance < threshold)) }

/-- IEEE-754 double restricted to the values the TTC estimators can
produce: a finite value (embedded exactly as a rational), the two
infinities, and NaN.  Signed zero is collapsed to `fin 0`; every zero
the source divides by arises as a positive count or a positive literal. -/
inductive EDouble where
  | nan : EDouble
  | pinf : EDouble
  | ninf : EDouble
  | fin : ℚ → EDouble
deriving DecidableEq

/-- IEEE division: NaN propagates, `inf/inf` is NaN, `inf/finite` keeps
the infinity (a zero divisor counts as +0), `finite/inf` is zero,
`finite/0` is a signed infinity (NaN for `0/0`). -/
def EDouble.div : EDouble → EDouble → EDouble
  | nan, _ => nan
  | _, nan => nan
  | pinf, pinf => nan
  | pinf, ninf => nan
  | ninf, pinf => nan
  | ninf, ninf => nan
  | pinf, fin q => if 0 ≤ q then pinf else ninf
  | ninf, fin q => if 0 ≤ q then ninf else pinf
  | fin _, pinf => fin 0
  | fin _, ninf => fin 0
  | fin a, fin b =>
    if b = 0 then (if a = 0 then nan else if 0 < a then pinf else ninf)
    else fin (a / b)

/-- IEEE subtraction: NaN propagates and infinities of equal sign cancel
to NaN. -/
def EDouble.sub : EDouble → EDouble → EDouble
  | nan, _ => nan
  | _, nan => nan
  | pinf, pinf => nan
  | ninf, ninf => nan
  | pinf, _ => pinf
  | ninf, _ => ninf
  | fin _, pinf => ninf
  | fin _, ninf => pinf
  | fin a, fin b => fin (a - b)

/-- IEEE multiplication: NaN propagates, `inf * 0` is NaN. -/
def EDouble.mul : EDouble → EDouble → EDouble
  | nan, _ => nan
  | _, nan => nan
  | pinf, pinf => pinf
  | pinf, ninf => ninf
  | ninf, pinf => ninf
  | ninf, ninf => pinf
  | pinf, fin q => if q = 0 then nan else if 0 < q then pinf else ninf
  | ninf, fin q => if q = 0 then nan else if 0 < q then ninf else pinf
  | fin q, pinf => if q = 0 then nan else if 0 < q then pinf else ninf
  | fin q, ninf => if q = 0 then nan else if 0 < q then ninf else pinf
  | fin a, fin b => fin (a * b)

/-- IEEE negation. -/
def EDouble.neg : EDouble → EDouble
  | nan => nan
  | pinf => ninf
  | ninf => pinf
  | fin q => fin (-q)

/-- The assumed ego-lane width of line 224. -/
def laneWidth : ℚ := 4

/-- The in-lane test of lines 238 and 248: `std::abs(it->y) <= laneWidth/2.0`. -/
def inLane (p : LidarPoint) : Bool := decide (|p.y| ≤ laneWidth / 2)

/-- The running minimum of lines 236-243 / 246-252: starting from the
initialiser `1e9`, replace the minimum by `it->x` whenever the point is in
the lane and `it->x` is smaller. -/
def minInLane (l : List LidarPoint) : ℚ :=
  l.foldl (fun m p => if inLane p then (if m > p.x then p.x else m) else m) (10 ^ 9)

/-- The in-lane counter `minXPrevSize` / `minXCurrSize` of the same loops. -/
def inLaneCount (l : List LidarPoint) : ℕ := l.countP inLane

/-- The representative previous-frame distance computed by
`computeTTCLidar`: the running in-lane minimum of lines 236-243 divided by
the in-lane count at line 244 and again at line 254 (the source divides
`minXPrev` by `minXPrevSize` twice).  A zero count divides by `+0.0` on
doubles, producing `+inf`. -/
def prevRepDistance (lidarPointsPrev : List LidarPoint) : EDouble :=
  EDouble.div
    (EDouble.div (.fin (minInLane lidarPointsPrev)) (.fin (inLaneCount lidarPointsPrev)))
    (.fin (inLaneCount lidarPointsPrev))

/-- The representative current-frame distance computed by
`computeTTCLidar`: the running in-lane minimum divided by the in-lane
count once, at line 253. -/
def currRepDistance (lidarPointsCurr : List LidarPoint) : EDouble :=
  EDouble.div (.fin (minInLane lidarPointsCurr)) (.fin (inLaneCount lidarPointsCurr))

/-- `computeTTCLidar` (lines 217-257): NaN when either point set is empty
(lines 231-234); otherwise
`TTC = minXCurr * (1/frameRate) / (minXPrev - minXCurr)` on doubles,
where `minXCurr`/`minXPrev` are the representative distances above. -/
def computeTTCLidar (lidarPointsPrev lidarPointsCurr : List LidarPoint)
    (frameRate : ℚ) : EDouble :=
  if lidarPointsCurr.length = 0 ∨ lidarPointsPrev.length = 0 then .nan
  else
    EDouble.div
      (EDouble.mul (currRepDistance lidarPointsCurr)
        (EDouble.div (.fin 1) (.fin frameRate)))
      (EDouble.sub (prevRepDistance lidarPointsPrev) (currRepDistance lidarPointsCurr))

/-- Insertion of a value into a sorted list of rationals. -/
def insertSorted (a : ℚ) : List ℚ → List ℚ
  | [] => [a]
  | b :: t => if a ≤ b then a :: b :: t else b :: insertSorted a t

/-- The `std::sort` of line 205, embedded as insertion sort: on a list of
rationals under the total order `≤`, every correct sort produces the same
output list, so the algorithm choice is immaterial. -/
def sortQ (l : List ℚ) : List ℚ := l.foldr insertSorted []

/-- `std::numeric_limits<double>::epsilon()`, the guard of line 188. -/
def dblEpsilon : ℚ := 1 / 2 ^ 52

/-- The surviving distance ratios of `computeTTCCamera` (lines 167-195):
outer index over `[0, n-1)` (`begin` to `end - 1`), inner index over
`[1, n)` (`begin + 1` to `end`); a pair survives when the previous-frame
distance exceeds machine epsilon and the current-frame distance is at
least the minimum distance `100.0` of line 178.  `dist` stands for
`cv::norm` on the keypoint difference. -/
def ratioList (dist : KeyPoint → KeyPoint → ℚ) (kptsPrev kptsCurr : List KeyPoint)
    (kptMatches : List DMatch) : List ℚ :=
  (List.range (kptMatches.length - 1)).flatMap (fun i =>
    (List.range' 1 (kptMatches.length - 1)).filterMap (fun j =>
      let mi := kptMatches.getD i defaultDMatch
      let mj := kptMatches.getD j defaultDMatch
      let distCurr := dist (kptsCurr.getD mi.trainIdx defaultKeyPoint)
        (kptsCurr.getD mj.trainIdx defaultKeyPoint)
      let distPrev := dist (kptsPrev.getD mi.queryIdx defaultKeyPoint)
        (kptsPrev.getD mj.queryIdx defaultKeyPoint)
      if distPrev > dblEpsilon ∧ distCurr ≥ 100 then some (distCurr / distPrev)
      else none))

/-- `computeTTCCamera` (lines 164-214), result `none` marking undefined
behaviour.  An empty match list makes the outer loop bound `end() - 1`
invalid and the first iteration dereference past the end (`none`); with
at least two matches every match's indices are read through
`std::vector::at`, so an out-of-range index aborts the computation
(`none`; with exactly one match neither loop body runs).  If no ratio
survives, TTC is NaN (lines 198-202).  Otherwise the ratios are sorted
and line 207 selects index `size/2 + 1` for an even count (`none` when
that index is out of range) and `size/2` for an odd count, and
`TTC = -(1/frameRate) / (1 - medianDistRatio)` on doubles. -/
def computeTTCCamera (dist : KeyPoint → KeyPoint → ℚ) (kptsPrev kptsCurr : List KeyPoint)
    (kptMatches : List DMatch) (frameRate : ℚ) : Option EDouble :=
  if kptMatches.length = 0 then none
  else if 2 ≤ kptMatches.length ∧
      kptMatches.any (fun m =>
        decide (kptsCurr.length ≤ m.trainIdx) || decide (kptsPrev.length ≤ m.queryIdx)) then
    none
  else
    let distRatios := ratioList dist kptsPrev kptsCurr kptMatches
    if distRatios.length = 0 then some .nan
    else
      let sorted := sortQ distRatios
      let idx := if sorted.length % 2 = 0 then sorted.length / 2 + 1 else sorted.length / 2
      match sorted.get? idx with
      | none => none
      | some medianDistRatio =>
        some (EDouble.div (EDouble.neg (EDouble.div (.fin 1) (.fin frameRate)))
          (.fin (1 - medianDistRatio)))

/-- Round half to even of a rational, as `cvRound` does on floating
values. -/
def cvRound (q : ℚ) : ℤ :=
  let f := ⌊q⌋
  if q - (f : ℚ) < 1 / 2 then f
  else if 1 / 2 < q - (f : ℚ) then f + 1
  else if 2 ∣ f then f else f + 1

/-- `saturate_cast<int>` applied to a floating value: round half to even,
clamped to the `int` range.  This is the conversion taken when a
`cv::Point2f` is passed to `cv::Rect::contains` in `matchBoundingBoxes`
(lines 290 and 296). -/
def satCastInt (q : ℚ) : ℤ := max (-(2 ^ 31)) (min (2 ^ 31 - 1) (cvRound q))

/-- Rounding conversion of a keypoint location for `matchBoundingBoxes`. -/
def roundPt (k : KeyPoint) : ℤ × ℤ := (satCastInt k.px, satCastInt k.py)

/-- The box-identification loops of lines 289-303: `currID` / `prevID`
start at `-1` and are overwritten by the `boxID` of every box whose
rectangle contains the keypoint, so the last containing box in iteration
order wins. -/
def lastContaining (boxes : List BoundingBox) (pt : ℤ × ℤ) : ℤ :=
  boxes.foldl (fun acc b => if rectContains b.roi pt then b.boxID else acc) (-1)

/-- One increment of the zero-initialised vote matrix
`matchMatrix[currID][prevID]++` (line 307). -/
def bumpVote (M : ℤ → ℤ → ℕ) (a b : ℤ) : ℤ → ℤ → ℕ :=
  fun x y => if x = a ∧ y = b then M x y + 1 else M x y

/-- The vote matrix built by lines 284-310, as a total function on the
index pairs (`matchMatrix` is a zero-initialised variable-length array
indexed by box ids; ids outside `[0, size)` would overflow the array in
the source, which the claims' id-alignment hypotheses exclude). -/
def voteMatrix (matchList : List DMatch) (prevFrame currFrame : DataFrame) : ℤ → ℤ → ℕ :=
  matchList.foldl
    (fun M m =>
      let currID := lastContaining currFrame.boundingBoxes
        (roundPt (currFrame.keypoints.getD m.trainIdx defaultKeyPoint))
      let prevID := lastContaining prevFrame.boundingBoxes
        (roundPt (prevFrame.keypoints.getD m.queryIdx defaultKeyPoint))
      if currID ≠ -1 ∧ prevID ≠ -1 then bumpVote M currID prevID else M)
    (fun _ _ => 0)

/-- The argmax scan of lines 313-320 after `t` inner iterations:
`maxCount` starts at `INT_MIN = -2^31`, `index` at 0, and a strictly
greater vote count replaces both. -/
def bestScan (row : ℕ → ℕ) : ℕ → ℤ × ℕ
  | 0 => (-(2 ^ 31), 0)
  | t + 1 =>
    let s := bestScan row t
    if (row t : ℤ) > s.1 then ((row t : ℤ), t) else s

/-- The `index` selected for one row by the scan of lines 313-320 over
`j = 0, …, prevSize - 1`. -/
def bestPrevIndex (row : ℕ → ℕ) (prevSize : ℕ) : ℕ := (bestScan row prevSize).2

/-- `std::map::operator[]` assignment (line 321): total-function model of
the map, later stores overwrite earlier ones. -/
def storeMap (m : ℤ → Option ℤ) (k v : ℤ) : ℤ → Option ℤ :=
  fun x => if x = k then some v else m x

/-- `matchBoundingBoxes` (lines 260-326): build the vote matrix, then for
each current row index `i = 0, …, currSize - 1` store the scanned argmax
into `bbBestMatches[i]`.  The map is passed by reference in the source,
so the model takes its initial state as an argument. -/
def matchBoundingBoxes (matchList : List DMatch) (bbBestMatches : ℤ → Option ℤ)
    (prevFrame currFrame : DataFrame) : ℤ → Option ℤ :=
  (List.range currFrame.boundingBoxes.length).foldl
    (fun m (i : ℕ) =>
      storeMap m (i : ℤ)
        ((bestPrevIndex
          (fun j => voteMatrix matchList prevFrame currFrame (i : ℤ) (j : ℤ))
          prevFrame.boundingBoxes.length : ℕ) : ℤ))
    bbBestMatches

/-! Concrete instances used by the claims' witnesses, counterexamples and
failing inputs. -/

/-- Identity 4×4 transform. -/
def idMat4 : Mat4 := ⟨⟨1, 0, 0, 0⟩, ⟨0, 1, 0, 0⟩, ⟨0, 0, 1, 0⟩, ⟨0, 0, 0, 1⟩⟩

/-- Trivial 3×4 projection (drops the homogeneous coordinate). -/
def idMat34 : Mat34 := ⟨⟨1, 0, 0, 0⟩, ⟨0, 1, 0, 0⟩, ⟨0, 0, 1, 0⟩⟩

/-- Distance along a common vertical line: equals the Euclidean norm of
`cv::norm` whenever both keypoints have the same x coordinate, which all
concrete camera instances below arrange. -/
def axisDist (a b : KeyPoint) : ℚ := |a.py - b.py|

/-- Previous-frame keypoints of the vision-TTC failing input (collinear
on x = 0). -/
def c1KptsPrev : List KeyPoint := [⟨0, 0⟩, ⟨0, 100⟩, ⟨0, 300⟩]

/-- Current-frame keypoints of the vision-TTC failing input. -/
def c1KptsCurr : List KeyPoint := [⟨0, 0⟩, ⟨0, 200⟩, ⟨0, 260⟩]

/-- Matches of the vision-TTC failing input: exactly two distance ratios
survive (pair (0,1) with ratio 2, pair (0,2) with ratio 13/15; pair (1,2)
has current distance 60 < 100 and is filtered). -/
def c1Matches : List DMatch := [⟨0, 0, 1⟩, ⟨1, 1, 1⟩, ⟨2, 2, 1⟩]

/-- A region used by correspondence-filter instances. -/
def filterBox : BoundingBox := ⟨0, ⟨0, 0, 10, 10⟩, [], []⟩

/-- A current-frame keypoint list with the single keypoint outside
`filterBox` (the empty-candidate failing input). -/
def c2Curr : List KeyPoint := [⟨50, 50⟩]

/-- A match list whose only current keypoint is outside `filterBox`. -/
def c2Matches : List DMatch := [⟨0, 0, 5⟩]

/-- Current keypoints inside `filterBox` for the negative-dissimilarity
counterexample. -/
def c6Curr : List KeyPoint := [⟨5, 5⟩, ⟨5, 5⟩]

/-- Matches with dissimilarities -10 and 2: the truncating accumulate
yields -8, the unsigned division by 2 yields 2^63 - 4, and the huge
threshold keeps both candidates. -/
def c6Matches : List DMatch := [⟨0, 0, -10⟩, ⟨1, 1, 2⟩]

/-- One in-ROI keypoint for the correspondence-filter witness. -/
def c6wCurr : List KeyPoint := [⟨5, 5⟩]

/-- One candidate of dissimilarity 2: mean 2, threshold 1.4, nothing
kept. -/
def c6wMatches : List DMatch := [⟨0, 0, 2⟩]

/-- A wide region for the shrink-factor counterexample. -/
def wideBox : BoundingBox := ⟨0, ⟨0, 0, 100, 100⟩, [], []⟩

/-- A narrow region overlapping `wideBox`. -/
def narrowBox : BoundingBox := ⟨1, ⟨40, 0, 10, 100⟩, [], []⟩

/-- A point projecting to pixel (49, 50): inside both unshrunk regions
(ambiguous, discarded at shrink factor 0) but only inside the shrunk
`wideBox` at shrink factor 1/2 (assigned). -/
def overlapPoint : LidarPoint := ⟨49, 50, 1, 0⟩

/-- A single region for the shrink-monotonicity witness and the
idempotence counterexample. -/
def shrinkBox : BoundingBox := ⟨0, ⟨0, 0, 16, 16⟩, [], []⟩

/-- A point projecting to pixel (8, 8), inside `shrinkBox`. -/
def centerPoint : LidarPoint := ⟨8, 8, 1, 0⟩

/-- In-lane previous-frame point at distance 10. -/
def prevPoint10 : LidarPoint := ⟨10, 0, 0, 0⟩

/-- In-lane current-frame point at distance 8. -/
def currPoint8 : LidarPoint := ⟨8, 0, 0, 0⟩

/-- Out-of-lane previous-frame point (|y| = 3 > 2). -/
def outLanePrev : LidarPoint := ⟨10, 3, 0, 0⟩

/-- Out-of-lane current-frame point (|y| = 3 > 2). -/
def outLaneCurr : LidarPoint := ⟨8, -3, 0, 0⟩

/-- A one-region frame (box id 0 matching its index) for the associator
witness. -/
def oneBoxFrame : DataFrame := ⟨[⟨5, 5⟩], [⟨0, ⟨0, 0, 10, 10⟩, [], []⟩]⟩

/-- The empty association map (fresh `std::map`). -/
def emptyMap : ℤ → Option ℤ := fun _ => none

/-- A single keypoint at the origin. -/
def singleKpt : List KeyPoint := [⟨0, 0⟩]

/-- A single self-match: with one match neither pair loop body runs, so
no ratio survives. -/
def singleMatch : List DMatch := [⟨0, 0, 1⟩]

/-- The box produced by the correspondence filter on `c6Matches`: both
candidates are appended because the unsigned mean blows up. -/
def c6ResultBox : BoundingBox := ⟨0, ⟨0, 0, 10, 10⟩, [], [⟨0, 0, -10⟩, ⟨1, 1, 2⟩]⟩

/-! Helper lemmas. -/

/-- Truncation of an integer value is that integer. -/
theorem truncQ_intCast (n : ℤ) : truncQ ((n : ℤ) : ℚ) = n := by
  unfold truncQ
  rw [Rat.num_intCast, Rat.den_intCast]
  simp [Int.tdiv_one]

/-- Truncation agrees with the floor on nonnegative rationals. -/
theorem truncQ_eq_floor (q : ℚ) (h : 0 ≤ q) : truncQ q = ⌊q⌋ := by
  unfold truncQ
  rw [Rat.floor_def, Int.tdiv_eq_ediv (Rat.num_nonneg.mpr h) (Int.natCast_nonneg _)]

/-- Truncation of a nonnegative rational is nonnegative. -/
theorem truncQ_nonneg (q : ℚ) (h : 0 ≤ q) : 0 ≤ truncQ q := by
  rw [truncQ_eq_floor q h]
  exact Int.floor_nonneg.mpr h

/-- Truncation of a nonnegative rational does not exceed it. -/
theorem truncQ_le (q : ℚ) (h : 0 ≤ q) : (truncQ q : ℚ) ≤ q := by
  rw [truncQ_eq_floor q h]
  exact Int.floor_le q

/-- `clusterStep` only appends to `lidarPoints`: the rectangle list is
unchanged. -/
theorem clusterStep_roi (s : ℚ) (P : Mat34) (R RT : Mat4) (bs : List BoundingBox)
    (p : LidarPoint) :
    (clusterStep s P R RT bs p).map (·.roi) = bs.map (·.roi) := by
  unfold clusterStep
  by_cases h :
      (bs.filter fun b => rectContains (shrunkRect s b.roi) (projectLidar P R RT p)).length = 1
  · simp only [h, if_pos, List.map_map]
    refine List.map_congr_left (fun b _ => ?_)
    by_cases hb : rectContains (shrunkRect s b.roi) (projectLidar P R RT p) <;>
      simp [hb, Function.comp]
  · simp [h]

/-- The count of enclosing shrunk rectangles, computed over the boxes,
equals the spec-side count over their rectangle list. -/
theorem filter_length_eq_countP (s : ℚ) (bs : List BoundingBox)
    (pt : ℤ × ℤ) :
    (bs.filter fun b => rectContains (shrunkRect s b.roi) pt).length =
      (bs.map (·.roi)).countP fun r => rectContains (shrunkRect s r) pt := by
  rw [List.countP_map, List.countP_eq_length_filter]
  rfl

/-- Characterisation of `clusterLidarWithROI`: every box keeps its other
fields and appends, in input order, exactly the points assigned to it by
`assignedToRoi` — the points whose projected pixel its shrunk rectangle
contains while the total number of enclosing shrunk rectangles is exactly
one. -/
theorem clusterLidar_characterization (pts : List LidarPoint) (boxes : List BoundingBox)
    (s : ℚ) (P : Mat34) (R RT : Mat4) :
    clusterLidarWithROI boxes pts s P R RT = boxes.map (fun b =>
      { b with lidarPoints := b.lidarPoints ++
          pts.filter (assignedToRoi (boxes.map (·.roi)) s P R RT b.roi) }) := by
  induction pts generalizing boxes with
  | nil =>
    simp only [clusterLidarWithROI, List.foldl_nil, List.filter_nil, List.append_nil]
    exact (List.map_id boxes).symm
  | cons p pts ih =>
    have hstep : clusterLidarWithROI boxes (p :: pts) s P R RT =
        clusterLidarWithROI (clusterStep s P R RT boxes p) pts s P R RT := rfl
    rw [hstep, ih]
    rw [clusterStep_roi]
    unfold clusterStep
    by_cases h :
        (boxes.filter fun b =>
          rectContains (shrunkRect s b.roi) (projectLidar P R RT p)).length = 1
    · simp only [h, if_pos, List.map_map]
      refine List.map_congr_left (fun b _ => ?_)
      simp only [Function.comp_apply]
      by_cases hb : rectContains (shrunkRect s b.roi) (projectLidar P R RT p)
      · have hassigned : assignedToRoi (boxes.map (·.roi)) s P R RT b.roi p = true := by
          unfold assignedToRoi
          rw [← filter_length_eq_countP]
          simp [hb, h]
        simp [hb, List.filter_cons, hassigned, List.append_assoc]
      · have hassigned : assignedToRoi (boxes.map (·.roi)) s P R RT b.roi p = false := by
          unfold assignedToRoi
          simp [hb]
        simp [hb, List.filter_cons, hassigned]
    · simp only [h, if_neg, if_false]
      refine List.map_congr_left (fun b _ => ?_)
      have hassigned : assignedToRoi (boxes.map (·.roi)) s P R RT b.roi p = false := by
        unfold assignedToRoi
        rw [← filter_length_eq_countP]
        simp only [Bool.and_eq_false_iff, decide_eq_false_iff_not]
        right
        exact h
      simp [List.filter_cons, hassigned]

/-- Lookup after the store fold of `matchBoundingBoxes`, for a key inside
the written range. -/
theorem storeFold_lookup_mem (f : ℕ → ℤ) (init : ℤ → Option ℤ) :
    ∀ (n i : ℕ), i < n →
      ((List.range n).foldl (fun m (k : ℕ) => storeMap m (k : ℤ) (f k)) init) (i : ℤ) =
        some (f i) := by
  intro n
  induction n with
  | zero => intro i hi; omega
  | succ m ih =>
    intro i hi
    rw [List.range_succ, List.foldl_append]
    simp only [List.foldl_cons, List.foldl_nil]
    by_cases him : i = m
    · subst him
      simp [storeMap]
    · have hlt : i < m := by omega
      have hne : (i : ℤ) ≠ (m : ℤ) := by
        intro hc
        exact him (by exact_mod_cast hc)
      simp only [storeMap, if_neg hne]
      exact ih i hlt

/-- Lookup after the store fold of `matchBoundingBoxes`, for a key outside
the written range. -/
theorem storeFold_lookup_out (f : ℕ → ℤ) (init : ℤ → Option ℤ) :
    ∀ (n : ℕ) (x : ℤ), (∀ i : ℕ, i < n → (i : ℤ) ≠ x) →
      ((List.range n).foldl (fun m (k : ℕ) => storeMap m (k : ℤ) (f k)) init) x = init x := by
  intro n
  induction n with
  | zero => intro x _; simp
  | succ m ih =>
    intro x hx
    rw [List.range_succ, List.foldl_append]
    simp only [List.foldl_cons, List.foldl_nil]
    have hne : x ≠ (m : ℤ) := fun hc => hx m (by omega) hc.symm
    simp only [storeMap, if_neg hne]
    exact ih x (fun i hi => hx i (by omega))

/-- Rerunning `matchBoundingBoxes` on its own output rewrites the same
entries with the same values: the vote matrix and the per-row argmax do
not depend on the map being written. -/
theorem matchBoundingBoxes_idem (matchList : List DMatch) (init : ℤ → Option ℤ)
    (prevFrame currFrame : DataFrame) :
    matchBoundingBoxes matchList (matchBoundingBoxes matchList init prevFrame currFrame)
      prevFrame currFrame = matchBoundingBoxes matchList init prevFrame currFrame := by
  funext x
  by_cases h : ∃ i : ℕ, i < currFrame.boundingBoxes.length ∧ (i : ℤ) = x
  · obtain ⟨i, hi, rfl⟩ := h
    rw [show matchBoundingBoxes matchList (matchBoundingBoxes matchList init prevFrame currFrame)
        prevFrame currFrame (i : ℤ) = some _ from
        storeFold_lookup_mem _ _ _ i hi,
      show matchBoundingBoxes matchList init prevFrame currFrame (i : ℤ) = some _ from
        storeFold_lookup_mem _ _ _ i hi]
  · push_neg at h
    have hout : ∀ i : ℕ, i < currFrame.boundingBoxes.length → (i : ℤ) ≠ x :=
      fun i hi => h i hi
    rw [show matchBoundingBoxes matchList (matchBoundingBoxes matchList init prevFrame currFrame)
        prevFrame currFrame x = matchBoundingBoxes matchList init prevFrame currFrame x from
        storeFold_lookup_out _ _ _ x hout,
      show matchBoundingBoxes matchList init prevFrame currFrame x = init x from
        storeFold_lookup_out _ _ _ x hout]

/-- The full clusterer never changes the rectangle list. -/
theorem clusterLidar_roi (boxes : List BoundingBox) (pts : List LidarPoint) (s : ℚ)
    (P : Mat34) (R RT : Mat4) :
    (clusterLidarWithROI boxes pts s P R RT).map (·.roi) = boxes.map (·.roi) := by
  rw [clusterLidar_characterization, List.map_map]
  rfl

/-- Rerunning the clusterer on its own output appends each box's assigned
points a second time. -/
theorem clusterLidar_twice (boxes : List BoundingBox) (pts : List LidarPoint) (s : ℚ)
    (P : Mat34) (R RT : Mat4) :
    clusterLidarWithROI (clusterLidarWithROI boxes pts s P R RT) pts s P R RT =
      boxes.map (fun b =>
        { b with lidarPoints := b.lidarPoints
            ++ pts.filter (assignedToRoi (boxes.map (·.roi)) s P R RT b.roi)
            ++ pts.filter (assignedToRoi (boxes.map (·.roi)) s P R RT b.roi) }) := by
  rw [clusterLidar_characterization pts (clusterLidarWithROI boxes pts s P R RT) s P R RT,
    clusterLidar_roi,
    clusterLidar_characterization pts boxes s P R RT, List.map_map]
  rfl

/-- When the shrink products are integral, the truncations of the shrunk
rectangle are lossless and its fields are exact. -/
theorem shrunkRect_fields (s : ℚ) (r : Rect) (kw kh : ℤ)
    (hw : s * (r.w : ℚ) / 2 = (kw : ℚ)) (hh : s * (r.h : ℚ) / 2 = (kh : ℚ)) :
    shrunkRect s r = ⟨r.x + kw, r.y + kh, r.w - 2 * kw, r.h - 2 * kh⟩ := by
  have hw2 : s * (r.w : ℚ) = 2 * (kw : ℚ) := by linarith
  have hh2 : s * (r.h : ℚ) = 2 * (kh : ℚ) := by linarith
  have hx : (r.x : ℚ) + s * (r.w : ℚ) / 2 = ((r.x + kw : ℤ) : ℚ) := by push_cast; linarith
  have hy : (r.y : ℚ) + s * (r.h : ℚ) / 2 = ((r.y + kh : ℤ) : ℚ) := by push_cast; linarith
  have hww : (r.w : ℚ) * (1 - s) = ((r.w - 2 * kw : ℤ) : ℚ) := by
    push_cast
    linear_combination -hw2
  have hhh : (r.h : ℚ) * (1 - s) = ((r.h - 2 * kh : ℤ) : ℚ) := by
    push_cast
    linear_combination -hh2
  unfold shrunkRect
  rw [hx, hy, hww, hhh, truncQ_intCast, truncQ_intCast, truncQ_intCast, truncQ_intCast]

/-- Monotonicity of shrunk-rectangle containment in the shrink factor,
for lossless (integral) shrink products: a pixel inside the more-shrunk
rectangle is inside the less-shrunk one. -/
theorem shrunk_contains_mono (r : Rect) (s1 s2 : ℚ) (pt : ℤ × ℤ)
    (h12 : s1 ≤ s2) (h1 : s2 < 1)
    (k1w k1h k2w k2h : ℤ)
    (hw1 : s1 * (r.w : ℚ) / 2 = (k1w : ℚ)) (hh1 : s1 * (r.h : ℚ) / 2 = (k1h : ℚ))
    (hw2 : s2 * (r.w : ℚ) / 2 = (k2w : ℚ)) (hh2 : s2 * (r.h : ℚ) / 2 = (k2h : ℚ))
    (hc : rectContains (shrunkRect s2 r) pt = true) :
    rectContains (shrunkRect s1 r) pt = true := by
  rw [shrunkRect_fields s2 r k2w k2h hw2 hh2] at hc
  rw [shrunkRect_fields s1 r k1w k1h hw1 hh1]
  simp only [rectContains, Bool.and_eq_true, decide_eq_true_eq] at hc ⊢
  obtain ⟨⟨⟨hxl, hxr⟩, hyl⟩, hyr⟩ := hc
  have hwx : k1w ≤ k2w ∨ (r.w : ℤ) < 0 := by
    rcases le_or_lt 0 (r.w : ℤ) with hw | hw
    · left
      have : (k1w : ℚ) ≤ (k2w : ℚ) := by
        rw [← hw1, ← hw2]
        have hwq : (0 : ℚ) ≤ (r.w : ℚ) := by exact_mod_cast hw
        nlinarith
      exact_mod_cast this
    · right; exact hw
  have hwy : k1h ≤ k2h ∨ (r.h : ℤ) < 0 := by
    rcases le_or_lt 0 (r.h : ℤ) with hh | hh
    · left
      have : (k1h : ℚ) ≤ (k2h : ℚ) := by
        rw [← hh1, ← hh2]
        have hhq : (0 : ℚ) ≤ (r.h : ℚ) := by exact_mod_cast hh
        nlinarith
      exact_mod_cast this
    · right; exact hh
  have hwneg : (r.w : ℤ) < 0 → False := by
    intro hw
    have : (r.w : ℚ) * (1 - s2) < 0 := by
      have hwq : (r.w : ℚ) < 0 := by exact_mod_cast hw
      have : (0 : ℚ) < 1 - s2 := by linarith
      nlinarith
    have hz : ((r.w - 2 * k2w : ℤ) : ℚ) < 0 := by
      rw [← show (r.w : ℚ) * (1 - s2) = ((r.w - 2 * k2w : ℤ) : ℚ) by
        push_cast
        linear_combination -(by linarith : s2 * (r.w : ℚ) = 2 * (k2w : ℚ))]
      exact this
    have : (r.w - 2 * k2w : ℤ) < 0 := by exact_mod_cast hz
    omega
  have hhneg : (r.h : ℤ) < 0 → False := by
    intro hh
    have : (r.h : ℚ) * (1 - s2) < 0 := by
      have hhq : (r.h : ℚ) < 0 := by exact_mod_cast hh
      have : (0 : ℚ) < 1 - s2 := by linarith
      nlinarith
    have hz : ((r.h - 2 * k2h : ℤ) : ℚ) < 0 := by
      rw [← show (r.h : ℚ) * (1 - s2) = ((r.h - 2 * k2h : ℤ) : ℚ) by
        push_cast
        linear_combination -(by linarith : s2 * (r.h : ℚ) = 2 * (k2h : ℚ))]
      exact this
    have : (r.h - 2 * k2h : ℤ) < 0 := by exact_mod_cast hz
    omega
  rcases hwx with hkw | hw
  · rcases hwy with hkh | hh
    · refine ⟨⟨⟨by omega, by omega⟩, by omega⟩, by omega⟩
    · exact absurd hh (by intro h; exact hhneg h)
  · exact absurd hw (by intro h; exact hwneg h)

/-- Invariant of the argmax scan of lines 313-320: after scanning a
nonempty prefix, the recorded index is in range, the recorded count is
its row value, every scanned cell is bounded by it, and every cell before
the recorded index is strictly below it (the strict-greater comparison
keeps the first maximum). -/
theorem bestScan_spec (row : ℕ → ℕ) :
    ∀ n : ℕ, 0 < n →
      (bestScan row n).2 < n ∧
      (bestScan row n).1 = ((row (bestScan row n).2 : ℕ) : ℤ) ∧
      (∀ k : ℕ, k < n → ((row k : ℕ) : ℤ) ≤ (bestScan row n).1) ∧
      (∀ k : ℕ, k < (bestScan row n).2 → row k < row (bestScan row n).2) := by
  intro n
  induction n with
  | zero => intro h; omega
  | succ m ih =>
    intro _
    by_cases hm : 0 < m
    · obtain ⟨hlt, hfst, hmax, hstrict⟩ := ih hm
      show _ ∧ _ ∧ _ ∧ _
      rw [show bestScan row (m + 1) =
          (if ((row m : ℕ) : ℤ) > (bestScan row m).1 then (((row m : ℕ) : ℤ), m)
           else bestScan row m) from rfl]
      by_cases hgt : ((row m : ℕ) : ℤ) > (bestScan row m).1
      · rw [if_pos hgt]
        refine ⟨by omega, rfl, ?_, ?_⟩
        · intro k hk
          rcases Nat.lt_succ_iff_lt_or_eq.mp hk with hk' | hk'
          · exact le_of_lt (lt_of_le_of_lt (hmax k hk') hgt)
          · subst hk'; exact le_refl _
        · intro k hk
          have : ((row k : ℕ) : ℤ) < ((row m : ℕ) : ℤ) :=
            lt_of_le_of_lt (hmax k hk) hgt
          exact_mod_cast this
      · rw [if_neg hgt]
        push_neg at hgt
        refine ⟨by omega, hfst, ?_, hstrict⟩
        intro k hk
        rcases Nat.lt_succ_iff_lt_or_eq.mp hk with hk' | hk'
        · exact hmax k hk'
        · subst hk'; exact hgt
    · have hm0 : m = 0 := by omega
      subst hm0
      have hpos : ((row 0 : ℕ) : ℤ) > (bestScan row 0).1 := by
        show ((row 0 : ℕ) : ℤ) > -(2 ^ 31)
        have : (0 : ℤ) ≤ ((row 0 : ℕ) : ℤ) := Int.natCast_nonneg _
        omega
      rw [show bestScan row 1 =
          (if ((row 0 : ℕ) : ℤ) > (bestScan row 0).1 then (((row 0 : ℕ) : ℤ), 0)
           else bestScan row 0) from rfl, if_pos hpos]
      refine ⟨by omega, rfl, ?_, ?_⟩
      · intro k hk
        have hk0 : k = 0 := by omega
        subst hk0; exact le_refl _
      · intro k hk; omega

/-- A failed accumulate never recovers. -/
theorem accStep_none (l : List ℚ) : l.foldl accStep none = none := by
  induction l with
  | nil => rfl
  | cons d l ih => simpa [accStep] using ih

/-- Bounds on the truncating accumulate over nonnegative summands: the
result is nonnegative, bounded by the exact sum plus the start, and keeps
the start's `int` upper bound. -/
theorem accInt_bounds (l : List ℚ) :
    ∀ a : ℤ, 0 ≤ a → (∀ d ∈ l, 0 ≤ d) →
      ∀ s : ℤ, l.foldl accStep (some a) = some s →
        0 ≤ s ∧ (s : ℚ) ≤ (a : ℚ) + l.sum ∧ (a < 2 ^ 31 → s < 2 ^ 31) := by
  induction l with
  | nil =>
    intro a ha _ s hs
    simp only [List.foldl_nil, Option.some.injEq] at hs
    subst hs
    exact ⟨ha, by simp, fun h => h⟩
  | cons d l ih =>
    intro a ha hd s hs
    have hd0 : 0 ≤ d := hd d (List.mem_cons_self d l)
    have hadd : (0 : ℚ) ≤ (a : ℚ) + d := by
      have : (0 : ℚ) ≤ (a : ℚ) := by exact_mod_cast ha
      linarith
    simp only [List.foldl_cons] at hs
    by_cases hb : -(2 ^ 31) ≤ truncQ ((a : ℚ) + d) ∧ truncQ ((a : ℚ) + d) < 2 ^ 31
    · rw [show accStep (some a) d = some (truncQ ((a : ℚ) + d)) by
        unfold accStep
        rw [Option.some_bind, if_pos hb]] at hs
      have ht0 : 0 ≤ truncQ ((a : ℚ) + d) := truncQ_nonneg _ hadd
      have htle : (truncQ ((a : ℚ) + d) : ℚ) ≤ (a : ℚ) + d := truncQ_le _ hadd
      obtain ⟨h1, h2, h3⟩ := ih (truncQ ((a : ℚ) + d)) ht0
        (fun e he => hd e (List.mem_cons_of_mem _ he)) s hs
      refine ⟨h1, ?_, fun _ => h3 hb.2⟩
      calc (s : ℚ) ≤ (truncQ ((a : ℚ) + d) : ℚ) + l.sum := h2
        _ ≤ (a : ℚ) + d + l.sum := by linarith
        _ = (a : ℚ) + (d :: l).sum := by rw [List.sum_cons]; ring
    · rw [show accStep (some a) d = none by
        unfold accStep
        rw [Option.some_bind, if_neg hb]] at hs
      rw [accStep_none] at hs
      exact absurd hs (by simp)

/-- The unsigned mean of line 151, for an in-range nonnegative sum, is a
nonnegative underestimate of the exact mean. -/
theorem cppUDivToLong_le (s : ℤ) (n : ℕ) (h0 : 0 ≤ s) (h1 : s < 2 ^ 31) (hn : 0 < n) :
    0 ≤ cppUDivToLong s n ∧ (cppUDivToLong s n : ℚ) ≤ (s : ℚ) / (n : ℚ) := by
  unfold cppUDivToLong
  have hmod : s % (2 ^ 64 : ℤ) = s := Int.emod_eq_of_lt h0 (by omega)
  rw [hmod]
  have hu : s.toNat / n < 2 ^ 63 := by
    have h2 : s.toNat < 2 ^ 31 := by omega
    have := Nat.div_le_self s.toNat n
    omega
  rw [if_pos hu]
  refine ⟨Int.natCast_nonneg _, ?_⟩
  have hcast : ((s.toNat / n : ℕ) : ℚ) ≤ (s.toNat : ℚ) / (n : ℚ) := Nat.cast_div_le
  have hs : ((s.toNat : ℕ) : ℚ) = (s : ℚ) := by
    have : ((s.toNat : ℕ) : ℤ) = s := Int.toNat_of_nonneg h0
    exact_mod_cast this
  rw [hs] at hcast
  exact_mod_cast hcast

/-- With no in-lane point the running minimum keeps its initialiser. -/
theorem minInLane_all_out (l : List LidarPoint) (h : ∀ p ∈ l, inLane p = false) :
    minInLane l = 10 ^ 9 := by
  unfold minInLane
  have hgen : ∀ m : ℚ, l.foldl (fun m p => if inLane p then (if m > p.x then p.x else m) else m) m
      = m := by
    induction l with
    | nil => intro m; rfl
    | cons p l ih =>
      intro m
      simp only [List.foldl_cons, h p (List.mem_cons_self p l)]
      exact ih (fun q hq => h q (List.mem_cons_of_mem _ hq)) m
  exact hgen _

/-- With no in-lane point the in-lane counter stays zero. -/
theorem inLaneCount_all_out (l : List LidarPoint) (h : ∀ p ∈ l, inLane p = false) :
    inLaneCount l = 0 := by
  unfold inLaneCount
  exact List.countP_eq_zero.mpr (fun p hp => by simp [h p hp])

/-- IEEE: any value divided by NaN is NaN. -/
theorem EDouble_div_nan (x : EDouble) : EDouble.div x .nan = .nan := by
  cases x <;> rfl

/-! Claim theorems. -/

/-- C3: for non-empty previous and current point sets, the range-based
TTC equals `currDistance * (1/frameRate) / (prevDistance - currDistance)`
on the representative closest in-lane distances the code computes, and at
prevDistance 10, currDistance 8, frameRate 10 the result is exactly
0.4 = 2/5. -/
theorem lidarTTC_formula_and_instance :
    (∀ (prev curr : List LidarPoint) (frameRate : ℚ), prev ≠ [] → curr ≠ [] →
      computeTTCLidar prev curr frameRate =
        EDouble.div
          (EDouble.mul (currRepDistance curr) (EDouble.div (.fin 1) (.fin frameRate)))
          (EDouble.sub (prevRepDistance prev) (currRepDistance curr))) ∧
    computeTTCLidar [prevPoint10] [currPoint8] 10 = .fin (2 / 5) := by
  constructor
  · intro prev curr f hp hc
    unfold computeTTCLidar
    rw [if_neg]
    push_neg
    exact ⟨fun h => hc (List.length_eq_zero.mp h), fun h => hp (List.length_eq_zero.mp h)⟩
  · decide

/-- Witness for C3 at the concrete instance. -/
theorem lidarTTC_formula_and_instance_witness :
    ([prevPoint10] ≠ ([] : List LidarPoint)) ∧ ([currPoint8] ≠ ([] : List LidarPoint)) ∧
    computeTTCLidar [prevPoint10] [currPoint8] 10 =
      EDouble.div
        (EDouble.mul (currRepDistance [currPoint8]) (EDouble.div (.fin 1) (.fin 10)))
        (EDouble.sub (prevRepDistance [prevPoint10]) (currRepDistance [currPoint8])) :=
  ⟨by decide, by decide,
    lidarTTC_formula_and_instance.1 [prevPoint10] [currPoint8] 10 (by decide) (by decide)⟩

/-- C10: with both point sets non-empty but no point inside the ego lane
(|y| > laneWidth/2 everywhere), every in-lane count is zero, the
double divisions produce infinities, `inf - inf` is NaN, and the result
is the NaN sentinel rather than a finite TTC. -/
theorem lidarTTC_out_of_lane_nan (prev curr : List LidarPoint) (frameRate : ℚ)
    (hp : prev ≠ []) (hc : curr ≠ [])
    (hpy : ∀ p ∈ prev, laneWidth / 2 < |p.y|) (hcy : ∀ p ∈ curr, laneWidth / 2 < |p.y|) :
    computeTTCLidar prev curr frameRate = .nan := by
  have hpf : ∀ p ∈ prev, inLane p = false := fun p hp' => by
    simp [inLane, not_le.mpr (hpy p hp')]
  have hcf : ∀ p ∈ curr, inLane p = false := fun p hc' => by
    simp [inLane, not_le.mpr (hcy p hc')]
  have h1 : prevRepDistance prev = .pinf := by
    unfold prevRepDistance
    rw [minInLane_all_out prev hpf, inLaneCount_all_out prev hpf]
    decide
  have h2 : currRepDistance curr = .pinf := by
    unfold currRepDistance
    rw [minInLane_all_out curr hcf, inLaneCount_all_out curr hcf]
    decide
  unfold computeTTCLidar
  rw [if_neg (by
    push_neg
    exact ⟨fun h => hc (List.length_eq_zero.mp h), fun h => hp (List.length_eq_zero.mp h)⟩)]
  rw [h1, h2]
  rw [show EDouble.sub .pinf .pinf = .nan from rfl]
  exact EDouble_div_nan _

/-- Witness for C10 at a concrete out-of-lane pair. -/
theorem lidarTTC_out_of_lane_nan_witness :
    ([outLanePrev] ≠ ([] : List LidarPoint)) ∧ ([outLaneCurr] ≠ ([] : List LidarPoint)) ∧
    (∀ p ∈ [outLanePrev], laneWidth / 2 < |p.y|) ∧
    (∀ p ∈ [outLaneCurr], laneWidth / 2 < |p.y|) ∧
    computeTTCLidar [outLanePrev] [outLaneCurr] 10 = .nan :=
  ⟨by decide, by decide, by decide, by decide,
    lidarTTC_out_of_lane_nan [outLanePrev] [outLaneCurr] 10 (by decide) (by decide)
      (by decide) (by decide)⟩

/-- C4: the clusterer appends a point to a region's collection exactly
when that region's shrunk rectangle contains the projected pixel and the
number of enclosing shrunk rectangles over all regions is exactly one
(`assignedToRoi`); a point enclosed by zero or several rectangles is
appended to no region, and every other field is unchanged. -/
theorem cluster_unique_assignment (boxes : List BoundingBox) (pts : List LidarPoint)
    (s : ℚ) (P : Mat34) (R RT : Mat4) :
    clusterLidarWithROI boxes pts s P R RT = boxes.map (fun b =>
      { b with lidarPoints := b.lidarPoints ++
          pts.filter (assignedToRoi (boxes.map (·.roi)) s P R RT b.roi) }) :=
  clusterLidar_characterization pts boxes s P R RT

/-- C9 (amended): the region associator is idempotent — rerunning it on
its own output map rewrites identical entries — but the region clusterer
is not: a second run on the mutated regions appends every assigned point
a second time. -/
theorem associator_idempotent_clusterer_not :
    (∀ (matchList : List DMatch) (init : ℤ → Option ℤ) (prevFrame currFrame : DataFrame),
      matchBoundingBoxes matchList (matchBoundingBoxes matchList init prevFrame currFrame)
        prevFrame currFrame = matchBoundingBoxes matchList init prevFrame currFrame) ∧
    (∀ (boxes : List BoundingBox) (pts : List LidarPoint) (s : ℚ) (P : Mat34) (R RT : Mat4),
      clusterLidarWithROI (clusterLidarWithROI boxes pts s P R RT) pts s P R RT =
        boxes.map (fun b =>
          { b with lidarPoints := b.lidarPoints
              ++ pts.filter (assignedToRoi (boxes.map (·.roi)) s P R RT b.roi)
              ++ pts.filter (assignedToRoi (boxes.map (·.roi)) s P R RT b.roi) })) :=
  ⟨matchBoundingBoxes_idem, clusterLidar_twice⟩

/-- Counterexample to C9 as stated: one region, one enclosed point; a
second clustering run appends the point again, so running twice differs
from running once. -/
theorem cluster_not_idempotent_counterexample :
    clusterLidarWithROI (clusterLidarWithROI [shrinkBox] [centerPoint] 0 idMat34 idMat4 idMat4)
      [centerPoint] 0 idMat34 idMat4 idMat4 ≠
    clusterLidarWithROI [shrinkBox] [centerPoint] 0 idMat34 idMat4 idMat4 := by
  decide

/-- Counterexample to C8 as stated: with shrink factors 0 ≤ 1/2 < 1, the
point in the overlap of `wideBox` and `narrowBox` is ambiguous (discarded)
at factor 0 but uniquely enclosed by `wideBox` at factor 1/2, so the
count of points assigned to `wideBox` strictly increases with the larger
shrink factor. -/
theorem cluster_shrink_monotone_counterexample :
    ((0 : ℚ) ≤ 1 / 2) ∧ ((0 : ℚ) ≤ (0 : ℚ)) ∧ ((1 / 2 : ℚ) < 1) ∧
    ¬ (((clusterLidarWithROI [wideBox, narrowBox] [overlapPoint] (1 / 2)
            idMat34 idMat4 idMat4).headD defaultBoundingBox).lidarPoints.length ≤
        ((clusterLidarWithROI [wideBox, narrowBox] [overlapPoint] 0
            idMat34 idMat4 idMat4).headD defaultBoundingBox).lidarPoints.length) := by
  exact ⟨by norm_num, le_refl 0, by norm_num, by decide⟩

/-- C8 (amended): for shrink factors s1 ≤ s2 in [0, 1) whose shrink
products are integral for every region (so the `int` truncation of the
rectangle computation is lossless), each region's shrunk rectangle at s2
is contained in its rectangle at s1, hence the number of points assigned
to a region at s2 never exceeds the number of points projecting into that
region's s1-shrunk rectangle.  The assigned counts themselves are not
monotone (see the counterexample): a larger factor can disambiguate a
point shared by two regions. -/
theorem cluster_shrink_monotone_lossless
    (boxes : List BoundingBox) (pts : List LidarPoint) (s1 s2 : ℚ) (P : Mat34) (R RT : Mat4)
    (h12 : s1 ≤ s2) (h0 : 0 ≤ s1) (h1 : s2 < 1)
    (hint : ∀ b ∈ boxes,
      (∃ k : ℤ, s1 * (b.roi.w : ℚ) / 2 = (k : ℚ)) ∧
      (∃ k : ℤ, s1 * (b.roi.h : ℚ) / 2 = (k : ℚ)) ∧
      (∃ k : ℤ, s2 * (b.roi.w : ℚ) / 2 = (k : ℚ)) ∧
      (∃ k : ℤ, s2 * (b.roi.h : ℚ) / 2 = (k : ℚ))) :
    List.Forall₂ (fun b b2 => b2.lidarPoints.length ≤ b.lidarPoints.length +
        pts.countP (fun p => rectContains (shrunkRect s1 b.roi) (projectLidar P R RT p)))
      boxes (clusterLidarWithROI boxes pts s2 P R RT) := by
  rw [clusterLidar_characterization, List.forall₂_map_right_iff, List.forall₂_same]
  intro b hb
  simp only [List.length_append]
  have hkey : (pts.filter (assignedToRoi (boxes.map (·.roi)) s2 P R RT b.roi)).length ≤
      pts.countP (fun p => rectContains (shrunkRect s1 b.roi) (projectLidar P R RT p)) := by
    rw [← List.countP_eq_length_filter]
    apply List.countP_mono_left
    intro p _ hp
    obtain ⟨⟨k1w, hw1⟩, ⟨k1h, hh1⟩, ⟨k2w, hw2⟩, ⟨k2h, hh2⟩⟩ := hint b hb
    have hc2 : rectContains (shrunkRect s2 b.roi) (projectLidar P R RT p) = true := by
      simp only [assignedToRoi, Bool.and_eq_true] at hp
      exact hp.1
    exact shrunk_contains_mono b.roi s1 s2 _ h12 h1 k1w k1h k2w k2h hw1 hh1 hw2 hh2 hc2
  omega

/-- Witness for C8 (amended) at shrink factors 0 and 1/2 on `shrinkBox`
(width and height 16, all shrink products integral). -/
theorem cluster_shrink_monotone_lossless_witness :
    ((0 : ℚ) ≤ 1 / 2) ∧ ((0 : ℚ) ≤ (0 : ℚ)) ∧ ((1 / 2 : ℚ) < 1) ∧
    List.Forall₂ (fun b b2 => b2.lidarPoints.length ≤ b.lidarPoints.length +
        [centerPoint].countP
          (fun p => rectContains (shrunkRect 0 b.roi) (projectLidar idMat34 idMat4 idMat4 p)))
      [shrinkBox] (clusterLidarWithROI [shrinkBox] [centerPoint] (1 / 2) idMat34 idMat4 idMat4) :=
  ⟨by norm_num, le_refl 0, by norm_num,
    cluster_shrink_monotone_lossless [shrinkBox] [centerPoint] 0 (1 / 2) idMat34 idMat4 idMat4
      (by norm_num) (le_refl 0) (by norm_num)
      (fun b hb => by
        simp only [List.mem_singleton] at hb
        subst hb
        exact ⟨⟨0, by norm_num [shrinkBox]⟩, ⟨0, by norm_num [shrinkBox]⟩,
          ⟨4, by norm_num [shrinkBox]⟩, ⟨4, by norm_num [shrinkBox]⟩⟩)⟩

/-- C2 (code defect): with no correspondence's current keypoint inside
the region's rectangle the candidate set is empty, and line 151 divides
the accumulated sum by the zero candidate count — integer division by
zero, undefined behaviour (`none`) — instead of retaining zero
correspondences. -/
theorem corrFilter_empty_candidates_divzero :
    roiCandidates filterBox.roi c2Curr c2Matches = [] ∧
    clusterKptMatchesWithROI filterBox [] c2Curr c2Matches = none :=
  ⟨by decide, by decide⟩

/-- C1 (code defect): on the failing input exactly two ratios survive
(an even, non-zero count); line 208 then reads `distRatios[size/2 + 1]`,
i.e. index 2 of a two-element vector — past the end, undefined behaviour
(`none`) — instead of a well-defined middle element of the sorted
list. -/
theorem cameraTTC_even_median_out_of_range :
    ratioList axisDist c1KptsPrev c1KptsCurr c1Matches = [2, 13 / 15] ∧
    computeTTCCamera axisDist c1KptsPrev c1KptsCurr c1Matches 10 = none :=
  ⟨by decide, by decide⟩

/-- C7 (code defect): on an empty correspondence list the outer loop
bound `kptMatches.end() - 1` is invalid and the first iteration
dereferences past the end — undefined behaviour (`none`) instead of the
NaN sentinel; with a single correspondence (zero surviving ratios) the
sentinel is produced as specified. -/
theorem cameraTTC_empty_matches_crash :
    computeTTCCamera axisDist [] [] [] 10 = none ∧
    computeTTCCamera axisDist singleKpt singleKpt singleMatch 10 = some .nan :=
  ⟨by decide, by decide⟩

/-- Counterexample to C6 as stated: with (physically impossible but
unconstrained) negative dissimilarities -10 and 2 the truncating
accumulate yields -8, the `int`-to-`size_t` conversion makes the mean
2^63 - 4, and the huge threshold keeps the candidate of dissimilarity 2
even though 2 exceeds 0.7 times the candidate mean -4. -/
theorem corrFilter_retention_counterexample :
    clusterKptMatchesWithROI filterBox [] c6Curr c6Matches = some c6ResultBox ∧
    (⟨1, 1, 2⟩ : DMatch) ∈ c6ResultBox.kptMatches ∧
    candMean filterBox.roi c6Curr c6Matches = -4 ∧
    (7 / 10 : ℚ) * candMean filterBox.roi c6Curr c6Matches ≤ 2 :=
  ⟨by decide, by decide, by decide, by decide⟩

/-- C6 (amended): restricted to inputs whose dissimilarity scores are all
nonnegative (the counterexample shows the unsigned mean conversion breaks
the property for negative scores), the correspondence filter appends only
matches whose dissimilarity is strictly below 0.7 times the arithmetic
mean of the region's candidate set: the truncating accumulate and the
flooring division can only lower the code's threshold below 0.7 times the
exact mean. -/
theorem corrFilter_retention_nonneg
    (bb : BoundingBox) (kptsPrev kptsCurr : List KeyPoint) (kptMatches : List DMatch)
    (bb2 : BoundingBox)
    (hd : ∀ m ∈ kptMatches, 0 ≤ m.distance)
    (hne : roiCandidates bb.roi kptsCurr kptMatches ≠ [])
    (heq : clusterKptMatchesWithROI bb kptsPrev kptsCurr kptMatches = some bb2) :
    ∃ kept : List DMatch,
      bb2.kptMatches = bb.kptMatches ++ kept ∧
      ∀ m ∈ kept, m.distance < (7 / 10) * candMean bb.roi kptsCurr kptMatches := by
  have hml : ((roiCandidates bb.roi kptsCurr kptMatches).map (fun m => m.distance)).length =
      (roiCandidates bb.roi kptsCurr kptMatches).length := List.length_map _ _
  have hlen0 : ¬ (((roiCandidates bb.roi kptsCurr kptMatches).map
      (fun m => m.distance)).length = 0) := by
    rw [hml]
    intro h
    exact hne (List.length_eq_zero.mp h)
  simp only [clusterKptMatchesWithROI] at heq
  rw [if_neg hlen0] at heq
  rcases hacc : accInt ((roiCandidates bb.roi kptsCurr kptMatches).map
      (fun m => m.distance)) with _ | sAcc
  · rw [hacc] at heq
    exact absurd heq (by simp)
  · rw [hacc] at heq
    have hbb2 := (Option.some.inj heq).symm
    refine ⟨(roiCandidates bb.roi kptsCurr kptMatches).filter
      (fun m => decide (m.distance < (7 / 10) *
        ((cppUDivToLong sAcc ((roiCandidates bb.roi kptsCurr kptMatches).map
          (fun m => m.distance)).length : ℤ) : ℚ))), ?_, ?_⟩
    · rw [hbb2]
    · intro m hm
      obtain ⟨hmem, hdec⟩ := List.mem_filter.mp hm
      have hlt : m.distance < (7 / 10) *
          ((cppUDivToLong sAcc ((roiCandidates bb.roi kptsCurr kptMatches).map
            (fun m => m.distance)).length : ℤ) : ℚ) := of_decide_eq_true hdec
      have hd' : ∀ d ∈ (roiCandidates bb.roi kptsCurr kptMatches).map
          (fun m => m.distance), 0 ≤ d := by
        intro d hdm
        obtain ⟨m', hm', rfl⟩ := List.mem_map.mp hdm
        exact hd m' (List.mem_of_mem_filter hm')
      obtain ⟨hs0, hsle, hslt⟩ := accInt_bounds _ 0 le_rfl hd' sAcc hacc
      have hlenpos : 0 < ((roiCandidates bb.roi kptsCurr kptMatches).map
          (fun m => m.distance)).length := Nat.pos_of_ne_zero hlen0
      obtain ⟨hm0, hmle⟩ := cppUDivToLong_le sAcc _ hs0 (hslt (by norm_num)) hlenpos
      have hlenQ : (0 : ℚ) < (((roiCandidates bb.roi kptsCurr kptMatches).map
          (fun m => m.distance)).length : ℚ) := by exact_mod_cast hlenpos
      have hsum : (sAcc : ℚ) ≤ ((roiCandidates bb.roi kptsCurr kptMatches).map
          (fun m => m.distance)).sum := by simpa using hsle
      have hdiv : (sAcc : ℚ) / (((roiCandidates bb.roi kptsCurr kptMatches).map
            (fun m => m.distance)).length : ℚ) ≤
          ((roiCandidates bb.roi kptsCurr kptMatches).map (fun m => m.distance)).sum /
            (((roiCandidates bb.roi kptsCurr kptMatches).map
              (fun m => m.distance)).length : ℚ) :=
        (div_le_div_iff_of_pos_right hlenQ).mpr hsum
      have hmean : ((cppUDivToLong sAcc ((roiCandidates bb.roi kptsCurr kptMatches).map
          (fun m => m.distance)).length : ℤ) : ℚ) ≤ candMean bb.roi kptsCurr kptMatches := by
        unfold candMean
        rw [← hml]
        exact le_trans hmle hdiv
      calc m.distance < _ := hlt
        _ ≤ (7 / 10) * candMean bb.roi kptsCurr kptMatches := by
          apply mul_le_mul_of_nonneg_left hmean
          norm_num

/-- C5: when region ids equal their frame positions (the layout the
vote-matrix indexing of the source assumes), `matchBoundingBoxes` stores
exactly one entry for every current-frame region id `i`, whose value is
the previous-frame id with the highest vote count in row `i` of the vote
matrix; ties break toward the lowest previous id (strict-greater scan),
and a row of all-zero votes maps to previous id 0. -/
theorem matchBoundingBoxes_argmax
    (matchList : List DMatch) (init : ℤ → Option ℤ) (prevFrame currFrame : DataFrame)
    (hc : currFrame.boundingBoxes.map (·.boxID) =
      (List.range currFrame.boundingBoxes.length).map (fun n => (n : ℤ)))
    (hp : prevFrame.boundingBoxes.map (·.boxID) =
      (List.range prevFrame.boundingBoxes.length).map (fun n => (n : ℤ)))
    (i : ℕ) (hi : i < currFrame.boundingBoxes.length) :
    ∃ j : ℕ,
      matchBoundingBoxes matchList init prevFrame currFrame (i : ℤ) = some (j : ℤ) ∧
      (j < prevFrame.boundingBoxes.length ∨ j = 0) ∧
      (∀ k : ℕ, k < prevFrame.boundingBoxes.length →
        voteMatrix matchList prevFrame currFrame (i : ℤ) (k : ℤ) ≤
          voteMatrix matchList prevFrame currFrame (i : ℤ) (j : ℤ)) ∧
      (∀ k : ℕ, k < j →
        voteMatrix matchList prevFrame currFrame (i : ℤ) (k : ℤ) <
          voteMatrix matchList prevFrame currFrame (i : ℤ) (j : ℤ)) ∧
      ((∀ k : ℕ, voteMatrix matchList prevFrame currFrame (i : ℤ) (k : ℤ) = 0) → j = 0) := by
  have hlookup : matchBoundingBoxes matchList init prevFrame currFrame (i : ℤ) =
      some ((bestPrevIndex
        (fun j => voteMatrix matchList prevFrame currFrame (i : ℤ) (j : ℤ))
        prevFrame.boundingBoxes.length : ℕ) : ℤ) :=
    storeFold_lookup_mem _ init _ i hi
  set row : ℕ → ℕ := fun j => voteMatrix matchList prevFrame currFrame (i : ℤ) (j : ℤ) with hrow
  set n := prevFrame.boundingBoxes.length with hn
  refine ⟨bestPrevIndex row n, hlookup, ?_, ?_, ?_, ?_⟩
  · by_cases hn0 : 0 < n
    · exact Or.inl (bestScan_spec row n hn0).1
    · right
      have h00 : n = 0 := by omega
      rw [h00]
      rfl
  · intro k hk
    have h0 : 0 < n := by omega
    obtain ⟨_, hfst, hmax, _⟩ := bestScan_spec row n h0
    have := hmax k hk
    rw [hfst] at this
    exact_mod_cast this
  · intro k hk
    by_cases hn0 : 0 < n
    · exact (bestScan_spec row n hn0).2.2.2 k hk
    · have h00 : n = 0 := by omega
      rw [h00] at hk
      have h01 : bestPrevIndex row 0 = 0 := rfl
      exact absurd hk (by omega)
  · intro hzero
    by_cases hn0 : 0 < n
    · by_contra hj
      have hjpos : 0 < bestPrevIndex row n := Nat.pos_of_ne_zero hj
      have hstrict := (bestScan_spec row n hn0).2.2.2 0 hjpos
      have h1 : row 0 = 0 := hzero 0
      have h2 : row ((bestScan row n).2) = 0 := hzero _
      rw [h1, h2] at hstrict
      omega
    · have h00 : n = 0 := by omega
      rw [h00]
      rfl

/-- Witness for C5 on a one-region frame pair with a single voting
correspondence. -/
theorem matchBoundingBoxes_argmax_witness :
    (oneBoxFrame.boundingBoxes.map (·.boxID) =
      (List.range oneBoxFrame.boundingBoxes.length).map (fun n => (n : ℤ))) ∧
    (0 < oneBoxFrame.boundingBoxes.length) ∧
    ∃ j : ℕ,
      matchBoundingBoxes singleMatch emptyMap oneBoxFrame oneBoxFrame ((0 : ℕ) : ℤ) =
        some (j : ℤ) ∧
      (j < oneBoxFrame.boundingBoxes.length ∨ j = 0) ∧
      (∀ k : ℕ, k < oneBoxFrame.boundingBoxes.length →
        voteMatrix singleMatch oneBoxFrame oneBoxFrame ((0 : ℕ) : ℤ) (k : ℤ) ≤
          voteMatrix singleMatch oneBoxFrame oneBoxFrame ((0 : ℕ) : ℤ) (j : ℤ)) ∧
      (∀ k : ℕ, k < j →
        voteMatrix singleMatch oneBoxFrame oneBoxFrame ((0 : ℕ) : ℤ) (k : ℤ) <
          voteMatrix singleMatch oneBoxFrame oneBoxFrame ((0 : ℕ) : ℤ) (j : ℤ)) ∧
      ((∀ k : ℕ, voteMatrix singleMatch oneBoxFrame oneBoxFrame ((0 : ℕ) : ℤ) (k : ℤ) = 0) →
        j = 0) :=
  ⟨by decide, by decide,
    matchBoundingBoxes_argmax singleMatch emptyMap oneBoxFrame oneBoxFrame
      (by decide) (by decide) 0 (by decide)⟩

/-- Witness for C6 (amended): one in-ROI candidate of dissimilarity 2,
mean 2, threshold 1.4, nothing kept. -/
theorem corrFilter_retention_nonneg_witness :
    (∀ m ∈ c6wMatches, 0 ≤ m.distance) ∧
    roiCandidates filterBox.roi c6wCurr c6wMatches ≠ [] ∧
    ∃ kept : List DMatch,
      filterBox.kptMatches = filterBox.kptMatches ++ kept ∧
      ∀ m ∈ kept, m.distance < (7 / 10) * candMean filterBox.roi c6wCurr c6wMatches :=
  ⟨by decide, by decide,
    corrFilter_retention_nonneg filterBox [] c6wCurr c6wMatches filterBox
      (by decide) (by decide) (by decide)⟩
